import Mathlib

/-!
# Verification of the acnh-orders-api socket client core

Shallow embedding of the connection-resilience and message-multiplexing
layer of the repository (the `SocketAPIClient` facade of
`src/unnamed/part_001` and the `AsyncSocket` of
`src/lib/async-socket/AsyncSocket.ts`), together with theorems settling
the specification claims about it.

Bytes are modelled as natural numbers (the UTF-8 code units of the wire
strings); the NUL byte is `0`.
-/

namespace AcnhOrders

/-! ## Frame decoder (data handler of `SocketAPIClient.start`, part_001 lines 98-131)

The handler turns each inbound chunk into fragments with
`data.toString('utf8').split('\x5c0\x5c0').map(res => res.replace(/\x5c0\x5c0/gi, '')).filter(res => !(res === '' or res === null))`.
`splitNulNul` embeds the JavaScript `split('\x5c0\x5c0')`: left-to-right,
non-overlapping occurrences of the two-byte sentinel cut the list.
-/

/-- JavaScript `str.split('\x5c0\x5c0')` over byte lists: scans left to right,
cutting at each non-overlapping occurrence of two consecutive NUL bytes.
Always returns a non-empty list of fragments. -/
def splitNulNul : List Nat → List (List Nat)
  | [] => [[]]
  | [b] => [[b]]
  | b1 :: b2 :: rest =>
    if b1 = 0 ∧ b2 = 0 then
      [] :: splitNulNul rest
    else
      match splitNulNul (b2 :: rest) with
      | f :: fs => (b1 :: f) :: fs
      | [] => [[b1]]

/-- JavaScript `str.replace(/\x5c0\x5c0/gi, '')` over byte lists: deletes each
non-overlapping occurrence of two consecutive NUL bytes, left to right. -/
def stripNulNul : List Nat → List Nat
  | [] => []
  | [b] => [b]
  | b1 :: b2 :: rest =>
    if b1 = 0 ∧ b2 = 0 then
      stripNulNul rest
    else
      b1 :: stripNulNul (b2 :: rest)

/-- The fragment pipeline of the data handler (part_001 lines 104-107):
split the chunk on the sentinel, strip residual sentinels from each
fragment, and drop empty fragments. There is no accumulation buffer:
each chunk is processed independently of every other chunk. -/
def dataHandlerFragments (chunk : List Nat) : List (List Nat) :=
  ((splitNulNul chunk).map stripNulNul).filter (fun f => !f.isEmpty)

/-- The wire encoding of a list of frames: each frame followed by the
two-byte `\x5c0\x5c0` sentinel, concatenated (spec section 6). -/
def framesEncode (frames : List (List Nat)) : List Nat :=
  (frames.map (fun f => f ++ [0, 0])).flatten

/-- A frame is NUL-free when none of its bytes is the NUL byte; the wire
format (UTF-8 JSON text or the heartbeat token) never contains a raw NUL. -/
def nulFree (f : List Nat) : Bool :=
  f.all (fun b => b ≠ 0)

theorem splitNulNul_ne_nil (l : List Nat) : splitNulNul l ≠ [] := by
  match l with
  | [] => simp [splitNulNul]
  | [b] => simp [splitNulNul]
  | b1 :: b2 :: rest =>
    unfold splitNulNul
    by_cases h : b1 = 0 ∧ b2 = 0
    · simp [h]
    · simp only [if_neg h]
      cases hs : splitNulNul (b2 :: rest) with
      | nil => simp
      | cons f fs => simp

theorem splitNulNul_cons_ne (b : Nat) (l : List Nat) (hb : b ≠ 0) :
    splitNulNul (b :: l) =
      match splitNulNul l with
      | f :: fs => (b :: f) :: fs
      | [] => [[b]] := by
  cases l with
  | nil => simp [splitNulNul]
  | cons b2 rest =>
    have h : ¬(b = 0 ∧ b2 = 0) := fun hc => hb hc.1
    conv_lhs => unfold splitNulNul
    rw [if_neg h]

theorem splitNulNul_frame_append (f rest : List Nat) (hf : nulFree f = true) :
    splitNulNul (f ++ 0 :: 0 :: rest) = f :: splitNulNul rest := by
  induction f with
  | nil =>
    simp only [List.nil_append]
    conv_lhs => unfold splitNulNul
    rw [if_pos ⟨rfl, rfl⟩]
  | cons b f' ih =>
    have hb : b ≠ 0 := by
      simp [nulFree, List.all_cons] at hf
      exact hf.1
    have hf' : nulFree f' = true := by
      simp [nulFree, List.all_cons] at hf
      simp [nulFree]
      exact hf.2
    have hrec := ih hf'
    rw [List.cons_append, splitNulNul_cons_ne b (f' ++ 0 :: 0 :: rest) hb, hrec]

theorem stripNulNul_cons_ne (b : Nat) (l : List Nat) (hb : b ≠ 0) :
    stripNulNul (b :: l) = b :: stripNulNul l := by
  cases l with
  | nil => simp [stripNulNul]
  | cons b2 rest =>
    have h : ¬(b = 0 ∧ b2 = 0) := fun hc => hb hc.1
    conv_lhs => unfold stripNulNul
    rw [if_neg h]

theorem stripNulNul_nulFree (f : List Nat) (hf : nulFree f = true) :
    stripNulNul f = f := by
  induction f with
  | nil => simp [stripNulNul]
  | cons b f' ih =>
    have hb : b ≠ 0 := by
      simp [nulFree, List.all_cons] at hf
      exact hf.1
    have hf' : nulFree f' = true := by
      simp [nulFree, List.all_cons] at hf
      simp [nulFree]
      exact hf.2
    rw [stripNulNul_cons_ne b f' hb, ih hf']

/-- Decoding the encoding of NUL-free frames yields exactly the non-empty
frames, in order. -/
theorem dataHandlerFragments_framesEncode (frames : List (List Nat))
    (h : ∀ f ∈ frames, nulFree f = true) :
    dataHandlerFragments (framesEncode frames) =
      frames.filter (fun f => !f.isEmpty) := by
  induction frames with
  | nil =>
    simp [dataHandlerFragments, framesEncode, splitNulNul, stripNulNul]
  | cons f fs ih =>
    have hf : nulFree f = true := h f (List.mem_cons_self f fs)
    have hfs : ∀ g ∈ fs, nulFree g = true := fun g hg => h g (List.mem_cons_of_mem f hg)
    have henc : framesEncode (f :: fs) = f ++ 0 :: 0 :: framesEncode fs := by
      simp [framesEncode, List.append_assoc]
    rw [dataHandlerFragments, henc, splitNulNul_frame_append f (framesEncode fs) hf]
    simp only [List.map_cons, List.filter_cons]
    rw [stripNulNul_nulFree f hf]
    have ihr := ih hfs
    rw [dataHandlerFragments] at ihr
    rw [ihr]

theorem framesEncode_append (a b : List (List Nat)) :
    framesEncode (a ++ b) = framesEncode a ++ framesEncode b := by
  simp [framesEncode]

theorem framesEncode_flatten (chunks : List (List (List Nat))) :
    (chunks.map framesEncode).flatten = framesEncode chunks.flatten := by
  induction chunks with
  | nil => simp [framesEncode]
  | cons c cs ih =>
    simp [framesEncode_append, ih]

theorem filter_flatten_comm (L : List (List (List Nat))) :
    (L.map (fun l => l.filter (fun f => !f.isEmpty))).flatten
      = L.flatten.filter (fun f => !f.isEmpty) := by
  induction L with
  | nil => simp
  | cons l ls ih =>
    simp only [List.map_cons, List.flatten_cons, List.filter_append, ih]

/-- C1 as stated is false: the data handler keeps no accumulation buffer,
so a frame split across two chunks is decoded as two separate fragments.
Concretely, the byte stream `AB\x5c0\x5c0` (one valid NUL-free frame `AB`,
sentinel-terminated) fed as the chunks `A` and `B\x5c0\x5c0` decodes to the
two fragments `A`, `B`, while fed as a single chunk it decodes to the one
fragment `AB`. -/
theorem C1_fragmentation_counterexample :
    ([[65], [66, 0, 0]] : List (List Nat)).flatten = framesEncode [[65, 66]] ∧
    nulFree [65, 66] = true ∧
    (([[65], [66, 0, 0]] : List (List Nat)).map dataHandlerFragments).flatten
      ≠ dataHandlerFragments ([[65], [66, 0, 0]] : List (List Nat)).flatten := by
  refine ⟨by decide, by decide, by decide⟩

/-- C1 amended: the decoder is chunking-invariant only when every chunk
boundary is aligned with a frame boundary, i.e. each chunk is itself a
concatenation of whole sentinel-terminated frames. In that case feeding
the chunks one at a time yields exactly the decoded sequence of the whole
concatenation (both equal the non-empty frames in order). With no
accumulation buffer in the handler, general fragmentation-invariance fails
(see the counterexample). -/
theorem C1_fragmentation_aligned (frames : List (List (List Nat)))
    (h : ∀ fs ∈ frames, ∀ f ∈ fs, nulFree f = true) :
    ((frames.map framesEncode).map dataHandlerFragments).flatten
      = dataHandlerFragments (frames.map framesEncode).flatten := by
  have hflat : ∀ g ∈ frames.flatten, nulFree g = true := by
    intro g hg
    rw [List.mem_flatten] at hg
    obtain ⟨fs, hfs, hgfs⟩ := hg
    exact h fs hfs g hgfs
  have lhs_eq :
      ((frames.map framesEncode).map dataHandlerFragments).flatten
        = (frames.map (fun fs => fs.filter (fun f => !f.isEmpty))).flatten := by
    congr 1
    rw [List.map_map]
    apply List.map_congr_left
    intro fs hfs
    exact dataHandlerFragments_framesEncode fs (h fs hfs)
  rw [lhs_eq, framesEncode_flatten, dataHandlerFragments_framesEncode frames.flatten hflat,
    filter_flatten_comm]

/-- Witness for the aligned-chunking theorem at a concrete input: two
chunks, each a whole frame. -/
theorem C1_fragmentation_aligned_witness :
    (((([[[104, 105]], [[119, 111]]] : List (List (List Nat))).map framesEncode).map
        dataHandlerFragments).flatten
      = dataHandlerFragments (([[[104, 105]], [[119, 111]]] :
          List (List (List Nat))).map framesEncode).flatten) :=
  C1_fragmentation_aligned [[[104, 105]], [[119, 111]]] (by decide)

/-! ## Decoded messages and the structural guard (part_001 lines 109-131, 238-242)

`JSON.parse` is an external runtime facility; what matters to the handler
is the shape of the value it returns (or that it throws, which the
handler's try/catch at lines 116-121 swallows). A successful parse
returns either a JavaScript object — modelled by the five fields the
client inspects (`none` = property absent / `undefined`); an array is an
object too and is modelled as an all-`none` record — or a non-object
primitive (a number, string, boolean or `null`, e.g. for the fragments
`42`, `"x"`, `true`, `null`). The data handler is therefore parametrised
by a parse oracle `List Nat → Option JsonValue`, where `none` models a
thrown parse error.

The guard `isInstanceOfSocketAPIMessage` runs OUTSIDE the try/catch. Its
first expression is the JavaScript `in` operator, which throws a
TypeError when its right operand is not an object, so on a primitive the
guard throws instead of returning a boolean; the exception propagates
out of the `forEach`, aborting the remaining fragments of the chunk. -/

/-- A decoded JSON object, as far as the client inspects it. -/
structure RawMessage where
  status : Option String
  id : Option String
  _type : Option String
  error : Option String
  value : Option String
  deriving DecidableEq, Repr

/-- A value returned by a successful `JSON.parse`: an object (or array),
or a non-object primitive (number, string, boolean, null). -/
inductive JsonValue where
  | obj (fields : RawMessage)
  | primitive
  deriving DecidableEq, Repr

/-- The label of the TypeError thrown by `x in nonObject` (Node phrases
it as: cannot use the in operator to search for the property in the
value; the exact wording is irrelevant to the control flow). -/
def typeErrorMessage : String :=
  "TypeError: cannot use in operator to search for status in a non-object"

/-- The type guard `isInstanceOfSocketAPIMessage` (part_001 lines
238-242): on an object it requires a valid `status`, a valid `_type`,
and at least one of `error` or `value` — it never checks the `id` field.
On a non-object its first expression (the `in` operator) throws a
TypeError, modelled by `Except.error`. -/
def isInstanceOfSocketAPIMessage : JsonValue → Except String Bool
  | JsonValue.obj o =>
    Except.ok (
      (o.status.isSome && (o.status == some "okay" || o.status == some "error")) &&
      (o._type.isSome && (o._type == some "event" || o._type == some "response")) &&
      (o.error.isSome || o.value.isSome))
  | JsonValue.primitive => Except.error typeErrorMessage

/-- JavaScript `decodedResponse.startsWith('hb')` over byte lists:
104 and 98 are the UTF-8 code units of `h` and `b`. -/
def startsWithHb : List Nat → Bool
  | 104 :: 98 :: _ => true
  | _ => false

/-- The mutable client state the fragment loop touches. -/
structure ClientState where
  receivedHeartbeat : Bool
  deriving DecidableEq, Repr

/-- Observable effects of processing fragments: socket writes, and the
`messageReceived` / `eventReceived` emissions (to the correlator and the
event registry respectively). -/
structure FragOutput where
  writes : List (List Nat)
  messageEmits : List RawMessage
  eventEmits : List RawMessage
  deriving DecidableEq, Repr

def emptyOutput : FragOutput :=
  { writes := [], messageEmits := [], eventEmits := [] }

def outputAppend (a b : FragOutput) : FragOutput :=
  { writes := a.writes ++ b.writes,
    messageEmits := a.messageEmits ++ b.messageEmits,
    eventEmits := a.eventEmits ++ b.eventEmits }

/-- Result of running (part of) the fragment loop: the client state, the
accumulated effects, and — when the guard threw a TypeError — the
uncaught exception that aborted the loop (`none` = ran to completion). -/
structure HandlerResult where
  state : ClientState
  output : FragOutput
  thrown : Option String
  deriving DecidableEq, Repr

/-- `respondToHeartbeat` (part_001 lines 165-174): marks the heartbeat as
seen and writes the identical packet back to the socket. -/
def respondToHeartbeat (heartbeatPacket : List Nat) : ClientState × FragOutput :=
  ({ receivedHeartbeat := true },
   { writes := [heartbeatPacket], messageEmits := [], eventEmits := [] })

/-- The body of the per-fragment loop (part_001 lines 109-130): heartbeat
fragments are answered and not forwarded; otherwise the fragment is
parsed inside try/catch (a parse throw leaves `response` undefined and
the guard clause returns), then `isInstanceOfSocketAPIMessage` runs
outside the try/catch — on a primitive it throws, and the TypeError
escapes uncaught; an object failing the checks is dropped; a passing
object is emitted as `messageReceived`, plus `eventReceived` when its
`_type` is `event`. -/
def processFragment (parse : List Nat → Option JsonValue) (st : ClientState)
    (frag : List Nat) : HandlerResult :=
  if startsWithHb frag then
    ⟨(respondToHeartbeat frag).1, (respondToHeartbeat frag).2, none⟩
  else
    match parse frag with
    | none => ⟨st, emptyOutput, none⟩
    | some response =>
      match isInstanceOfSocketAPIMessage response, response with
      | Except.error e, _ => ⟨st, emptyOutput, some e⟩
      | Except.ok false, _ => ⟨st, emptyOutput, none⟩
      | Except.ok true, JsonValue.obj o =>
        ⟨st, { writes := [], messageEmits := [o],
               eventEmits := if o._type == some "event" then [o] else [] }, none⟩
      | Except.ok true, JsonValue.primitive =>
        ⟨st, emptyOutput, none⟩

/-- `decodedResponses.forEach(...)`: process the fragments of a chunk in
order, threading the client state and concatenating the effects; an
uncaught TypeError from the guard aborts the loop, so the remaining
fragments are not processed. -/
def processFragments (parse : List Nat → Option JsonValue) (st : ClientState) :
    List (List Nat) → HandlerResult
  | [] => ⟨st, emptyOutput, none⟩
  | frag :: rest =>
    match processFragment parse st frag with
    | ⟨st1, out1, some e⟩ => ⟨st1, out1, some e⟩
    | ⟨st1, out1, none⟩ =>
      match processFragments parse st1 rest with
      | ⟨st2, out2, th⟩ => ⟨st2, outputAppend out1 out2, th⟩

theorem outputAppend_empty_left (b : FragOutput) :
    outputAppend emptyOutput b = b := by
  cases b
  simp [outputAppend, emptyOutput]

theorem processFragments_cons_crash (parse : List Nat → Option JsonValue)
    (st : ClientState) (frag : List Nat) (rest : List (List Nat))
    (st1 : ClientState) (out1 : FragOutput) (e : String)
    (h : processFragment parse st frag = ⟨st1, out1, some e⟩) :
    processFragments parse st (frag :: rest) = ⟨st1, out1, some e⟩ := by
  rw [processFragments, h]

theorem processFragments_cons_ok (parse : List Nat → Option JsonValue)
    (st : ClientState) (frag : List Nat) (rest : List (List Nat))
    (st1 : ClientState) (out1 : FragOutput)
    (h : processFragment parse st frag = ⟨st1, out1, none⟩) :
    processFragments parse st (frag :: rest)
      = ⟨(processFragments parse st1 rest).state,
         outputAppend out1 (processFragments parse st1 rest).output,
         (processFragments parse st1 rest).thrown⟩ := by
  rw [processFragments, h]

/-- A structurally valid message that is missing the `id` field. -/
def msgMissingId : RawMessage :=
  { status := some "okay", id := none, _type := some "response",
    error := none, value := some "pong" }

/-- A parse oracle under which the fragment `42` (bytes 52, 50) parses to
the JSON primitive 42 and every other fragment parses to an object that
passes the guard and would be dispatched. -/
def primitiveThenGood : List Nat → Option JsonValue :=
  fun frag => if frag = [52, 50] then some JsonValue.primitive
              else some (JsonValue.obj msgMissingId)

/-- C5 as stated is false on two points. First, the guard never checks
`id`: a fragment whose decoded object is missing the required field `id`
(but has a valid `status`, a valid `_type` and a `value`) passes the
guard and is dispatched to the correlator. Second, a fragment whose
parse succeeds with a non-object primitive (such as `42`) makes the
guard throw an uncaught TypeError, crashing the handler: the chunk
`42\x5c0\x5c0` followed by a dispatchable fragment emits nothing and
aborts, while the same dispatchable fragment alone is emitted — so a
malformed fragment can crash the decoder and does affect the decoding of
subsequent fragments. -/
theorem C5_guard_gaps_counterexample :
    msgMissingId.id = none ∧
    isInstanceOfSocketAPIMessage (JsonValue.obj msgMissingId) = Except.ok true ∧
    (processFragment (fun _ => some (JsonValue.obj msgMissingId)) ⟨false⟩
        [123]).output.messageEmits = [msgMissingId] ∧
    isInstanceOfSocketAPIMessage JsonValue.primitive
      = Except.error typeErrorMessage ∧
    processFragments primitiveThenGood ⟨false⟩ [[52, 50], [123]]
      = ⟨⟨false⟩, emptyOutput, some typeErrorMessage⟩ ∧
    processFragments primitiveThenGood ⟨false⟩ [[123]]
      = ⟨⟨false⟩,
         { writes := [], messageEmits := [msgMissingId], eventEmits := [] },
         none⟩ := by
  refine ⟨rfl, rfl, by decide, rfl, by decide, by decide⟩

/-- C5 amended. A fragment that fails JSON parsing, or whose parse
yields an object failing the implemented guard (`status` in okay/error,
`_type` in event/response, and at least one of `error`/`value` present —
`id` is not checked), is dropped: no write, no emission, no state
change, and removing it from a fragment sequence changes nothing about
the processing of the other fragments. But a fragment whose parse
yields a non-object primitive makes the guard throw an uncaught
TypeError before anything is emitted for it: the effects of the
preceding fragments stand, the exception escapes the handler, and the
remaining fragments of the chunk are not processed. -/
theorem C5_malformed_fragment_dropped (parse : List Nat → Option JsonValue)
    (st : ClientState) (pre post : List (List Nat)) (bad : List Nat)
    (hhb : startsWithHb bad = false) :
    ((parse bad = none ∨
        ∃ o, parse bad = some (JsonValue.obj o) ∧
          isInstanceOfSocketAPIMessage (JsonValue.obj o) = Except.ok false) →
      processFragment parse st bad = ⟨st, emptyOutput, none⟩ ∧
      processFragments parse st (pre ++ bad :: post)
        = processFragments parse st (pre ++ post)) ∧
    (parse bad = some JsonValue.primitive →
      processFragment parse st bad = ⟨st, emptyOutput, some typeErrorMessage⟩ ∧
      ((processFragments parse st pre).thrown = none →
        processFragments parse st (pre ++ bad :: post)
          = ⟨(processFragments parse st pre).state,
             (processFragments parse st pre).output,
             some typeErrorMessage⟩)) := by
  constructor
  · intro hbad
    have hdrop : ∀ s : ClientState,
        processFragment parse s bad = ⟨s, emptyOutput, none⟩ := by
      intro s
      rw [processFragment, hhb]
      simp only [Bool.false_eq_true, if_false]
      rcases hbad with hnone | ⟨o, ho, hguard⟩
      · rw [hnone]
      · rw [ho]
        simp [hguard]
    refine ⟨hdrop st, ?_⟩
    induction pre generalizing st with
    | nil =>
      simp only [List.nil_append]
      rw [processFragments_cons_ok parse st bad post st emptyOutput (hdrop st),
        outputAppend_empty_left]
    | cons p pre ih =>
      simp only [List.cons_append]
      cases hp : processFragment parse st p with
      | mk st1 out1 th =>
        cases th with
        | some e =>
          rw [processFragments_cons_crash parse st p _ st1 out1 e hp,
            processFragments_cons_crash parse st p _ st1 out1 e hp]
        | none =>
          rw [processFragments_cons_ok parse st p _ st1 out1 hp,
            processFragments_cons_ok parse st p _ st1 out1 hp, ih st1]
  · intro hprim
    have hcrash : ∀ s : ClientState,
        processFragment parse s bad = ⟨s, emptyOutput, some typeErrorMessage⟩ := by
      intro s
      rw [processFragment, hhb]
      simp only [Bool.false_eq_true, if_false]
      rw [hprim]
      rfl
    refine ⟨hcrash st, ?_⟩
    induction pre generalizing st with
    | nil =>
      intro _
      simp only [List.nil_append]
      rw [processFragments_cons_crash parse st bad post st emptyOutput
        typeErrorMessage (hcrash st)]
      rfl
    | cons p pre ih =>
      intro hth
      cases hp : processFragment parse st p with
      | mk st1 out1 th =>
        cases th with
        | some e =>
          rw [processFragments_cons_crash parse st p pre st1 out1 e hp] at hth
          simp at hth
        | none =>
          rw [processFragments_cons_ok parse st p pre st1 out1 hp] at hth
          simp only [] at hth
          simp only [List.cons_append]
          rw [processFragments_cons_ok parse st p _ st1 out1 hp,
            processFragments_cons_ok parse st p pre st1 out1 hp, ih st1 hth]

/-- Witness for the malformed-fragment theorem at concrete inputs: an
always-failing parse oracle with the dropped fragment `[1]` between
`[2]` and `[3]`, and an always-primitive parse oracle whose fragment
`[1]` crashes the handler before `[3]` is processed. -/
theorem C5_malformed_fragment_dropped_witness :
    (processFragment (fun _ => none) ⟨false⟩ [1] = ⟨⟨false⟩, emptyOutput, none⟩ ∧
     processFragments (fun _ => none) ⟨false⟩ [[2], [1], [3]]
       = processFragments (fun _ => none) ⟨false⟩ [[2], [3]]) ∧
    (processFragment (fun _ => some JsonValue.primitive) ⟨false⟩ [1]
       = ⟨⟨false⟩, emptyOutput, some typeErrorMessage⟩ ∧
     processFragments (fun _ => some JsonValue.primitive) ⟨false⟩ [[1], [3]]
       = ⟨(processFragments (fun _ => some JsonValue.primitive) ⟨false⟩ []).state,
          (processFragments (fun _ => some JsonValue.primitive) ⟨false⟩ []).output,
          some typeErrorMessage⟩) := by
  constructor
  · exact (C5_malformed_fragment_dropped (fun _ => none) ⟨false⟩ [[2]] [[3]] [1]
      (by decide)).1 (Or.inl rfl)
  · have h := (C5_malformed_fragment_dropped (fun _ => some JsonValue.primitive)
      ⟨false⟩ [] [[3]] [1] (by decide)).2 rfl
    exact ⟨h.1, h.2 rfl⟩

/-- C8: a fragment beginning with the two-character heartbeat marker is
answered by writing the identical fragment back to the socket,
`receivedHeartbeat` is set, nothing is forwarded to the correlator or
the event registry, and nothing is thrown — for every parse oracle and
prior state. -/
theorem C8_heartbeat_echo (parse : List Nat → Option JsonValue)
    (st : ClientState) (frag : List Nat) (h : startsWithHb frag = true) :
    processFragment parse st frag =
      ⟨{ receivedHeartbeat := true },
       { writes := [frag], messageEmits := [], eventEmits := [] }, none⟩ := by
  rw [processFragment, h]
  simp [respondToHeartbeat]

/-- Witness for the heartbeat echo at the concrete frame `hb-42`
(bytes 104, 98, 45, 52, 50). -/
theorem C8_heartbeat_echo_witness :
    processFragment (fun _ => none) ⟨false⟩ [104, 98, 45, 52, 50] =
      ⟨{ receivedHeartbeat := true },
       { writes := [[104, 98, 45, 52, 50]], messageEmits := [], eventEmits := [] },
       none⟩ :=
  C8_heartbeat_echo (fun _ => none) ⟨false⟩ [104, 98, 45, 52, 50] (by decide)

/-! ## Heartbeat check timer (part_001 lines 140-160 and 169)

State machine over the two events that touch the heartbeat machinery:
a heartbeat fragment arriving (`respondToHeartbeat` sets
`receivedHeartbeat = true`; the flag is never set back to `false`
anywhere in the class) and a firing of the `setInterval` callback of
`startHeartbeatCheckTimer`. A teardown-and-restart (removeAllListeners,
destroy, fresh socket, `start(...)`) is counted in `startCalls`; `start`
re-arms the interval on success, and nothing resets `receivedHeartbeat`. -/

structure HeartbeatTimerState where
  receivedHeartbeat : Bool
  timerArmed : Bool
  startCalls : Nat
  deriving DecidableEq, Repr

inductive HeartbeatEvent where
  | heartbeatArrives
  | checkFires
  deriving DecidableEq, Repr

def heartbeatCheckStep (s : HeartbeatTimerState) : HeartbeatEvent → HeartbeatTimerState
  | HeartbeatEvent.heartbeatArrives => { s with receivedHeartbeat := true }
  | HeartbeatEvent.checkFires =>
    if s.receivedHeartbeat then s
    else if !s.timerArmed then s
    else { s with timerArmed := true, startCalls := s.startCalls + 1 }

def heartbeatCheckRun (s : HeartbeatTimerState) (events : List HeartbeatEvent) :
    HeartbeatTimerState :=
  events.foldl heartbeatCheckStep s

/-- Once any heartbeat has been received, `receivedHeartbeat` is `true`
forever (no code path resets it), so no event sequence can ever trigger a
teardown again. -/
theorem heartbeatCheckRun_startCalls_frozen (events : List HeartbeatEvent) :
    ∀ s : HeartbeatTimerState, s.receivedHeartbeat = true →
      (heartbeatCheckRun s events).startCalls = s.startCalls := by
  induction events with
  | nil => intro s _; rfl
  | cons e rest ih =>
    intro s hs
    cases e with
    | heartbeatArrives =>
      have := ih { s with receivedHeartbeat := true } rfl
      simpa [heartbeatCheckRun, heartbeatCheckStep] using this
    | checkFires =>
      have hstep : heartbeatCheckStep s HeartbeatEvent.checkFires = s := by
        simp [heartbeatCheckStep, hs]
      have := ih s hs
      simpa [heartbeatCheckRun, hstep] using this

/-- C4 is right about the intended behaviour and the code is wrong: the
interval callback tests `receivedHeartbeat`, but no code path ever resets
the flag to `false`, so the check compares against "was a heartbeat EVER
received", not "since the previous check". Concretely, after one
heartbeat in the first window and then total silence, the later firings
of the check return early: no teardown and no re-`start` happens
(`startCalls` stays 0 and the flag stays `true` — by
`heartbeatCheckRun_startCalls_frozen` no continuation can ever change
that), although the code's own log message ("No heartbeat from server
received in the last ...ms") and the claim demand a teardown at every
silent window. -/
theorem C4_halfopen_detection_dead_after_first_heartbeat :
    heartbeatCheckRun ⟨false, true, 0⟩
        [HeartbeatEvent.heartbeatArrives, HeartbeatEvent.checkFires,
         HeartbeatEvent.checkFires]
      = ⟨true, true, 0⟩ := by
  decide

/-! ## The sendRequest race (part_001 lines 182-210)

The promise executor runs straight through: the two guard rejections do
not return early, the request is written, a timeout timer is started and
a `messageReceived` listener registered regardless. Afterwards the
promise state evolves under two events: a decoded message being emitted,
and the timer firing. A promise settles at most once (`settleFirst`). -/

inductive SettleResult where
  | resolved (message : RawMessage)
  | rejected (reason : String)
  deriving DecidableEq, Repr

/-- First settlement wins: resolving or rejecting an already settled
promise is a no-op. -/
def settleFirst (s : Option SettleResult) (v : SettleResult) : Option SettleResult :=
  match s with
  | some r => some r
  | none => some v

structure PendingRequestState where
  listenerOn : Bool
  timerOn : Bool
  settled : Option SettleResult
  deriving DecidableEq, Repr

/-- State of the promise right after the executor body ran (part_001
lines 184-208): guard rejections may have settled it already, but the
listener and the timer are armed unconditionally. -/
def sendRequestInit (connected : Bool) (requestId : Option String) :
    PendingRequestState :=
  { listenerOn := true, timerOn := true,
    settled :=
      if !connected then some (SettleResult.rejected "AsyncSocket not connected.")
      else if requestId = none then
        some (SettleResult.rejected "request.id must be defined.")
      else none }

inductive RequestEvent where
  | messageReceived (message : RawMessage)
  | timerFires
  deriving DecidableEq, Repr

/-- The rejection reason built by the timeout callback (line 196). -/
def timeoutRejection (requestId : Option String) (timeout : Nat) : String :=
  "The request with id = " ++
    (match requestId with | some i => i | none => "undefined") ++
    " timed out after " ++ toString timeout ++ "ms."

/-- One step of the race: the timeout callback rejects (it clears
nothing else — in particular it does NOT remove the listener); the
`responseListener` ignores messages with a non-matching id, and on a
match removes itself, clears the timer and resolves. -/
def pendingStep (requestId : Option String) (timeout : Nat)
    (s : PendingRequestState) : RequestEvent → PendingRequestState
  | RequestEvent.timerFires =>
    if !s.timerOn then s
    else { s with timerOn := false,
                  settled := settleFirst s.settled
                    (SettleResult.rejected (timeoutRejection requestId timeout)) }
  | RequestEvent.messageReceived message =>
    if !s.listenerOn then s
    else if message.id ≠ requestId then s
    else { listenerOn := false, timerOn := false,
           settled := settleFirst s.settled (SettleResult.resolved message) }

def runPending (requestId : Option String) (timeout : Nat)
    (s : PendingRequestState) (events : List RequestEvent) : PendingRequestState :=
  events.foldl (pendingStep requestId timeout) s

theorem runPending_resolved_invariant (requestId : Option String) (timeout : Nat)
    (events : List RequestEvent) (s : PendingRequestState)
    (hs : ∀ m : RawMessage, s.settled = some (SettleResult.resolved m) →
      m.id = requestId) :
    ∀ m : RawMessage,
      (runPending requestId timeout s events).settled
          = some (SettleResult.resolved m) →
      m.id = requestId := by
  induction events generalizing s with
  | nil => exact hs
  | cons e rest ih =>
    have hstep : ∀ m : RawMessage,
        (pendingStep requestId timeout s e).settled
            = some (SettleResult.resolved m) →
        m.id = requestId := by
      intro m hm
      cases e with
      | timerFires =>
        by_cases ht : s.timerOn
        · simp only [pendingStep, ht] at hm
          cases hset : s.settled with
          | none => simp [settleFirst, hset] at hm
          | some r =>
            simp [settleFirst, hset] at hm
            exact hs m (by rw [hset, hm])
        · simp only [pendingStep, ht] at hm
          simp at hm
          exact hs m hm
      | messageReceived msg =>
        by_cases hl : s.listenerOn
        · by_cases hid : msg.id = requestId
          · simp only [pendingStep, hl, hid] at hm
            simp at hm
            cases hset : s.settled with
            | none =>
              simp [settleFirst, hset] at hm
              rw [← hm]
              exact hid
            | some r =>
              simp [settleFirst, hset] at hm
              exact hs m (by rw [hset, hm])
          · simp only [pendingStep, hl, hid] at hm
            simp [hid] at hm
            exact hs m hm
        · simp only [pendingStep, hl] at hm
          simp at hm
          exact hs m hm
    exact ih (pendingStep requestId timeout s e) hstep

/-- C2: however the race unfolds — any interleaving of decoded messages
(of any status) and the timer — if the promise of a `sendRequest` with id
`requestId` ends up resolved with message `m`, then `m.id = requestId`;
a message with a different id can never resolve it. The second conjunct
records that the listener resolves on a matching id regardless of the
message's status (`okay` and `error` are both successful resolutions). -/
theorem C2_resolution_matches_request_id (requestId : Option String) (timeout : Nat)
    (events : List RequestEvent) (m : RawMessage)
    (h : (runPending requestId timeout (sendRequestInit true requestId) events).settled
        = some (SettleResult.resolved m)) :
    m.id = requestId ∧
    ∀ m' : RawMessage, m'.id = requestId →
      pendingStep requestId timeout ⟨true, true, none⟩
          (RequestEvent.messageReceived m')
        = ⟨false, false, some (SettleResult.resolved m')⟩ := by
  constructor
  · refine runPending_resolved_invariant requestId timeout events
      (sendRequestInit true requestId) ?_ m h
    intro m' hm'
    simp only [sendRequestInit] at hm'
    cases hreq : requestId with
    | none => rw [hreq] at hm'; simp at hm'
    | some i => rw [hreq] at hm'; simp at hm'
  · intro m' hm'
    simp [pendingStep, hm', settleFirst]

/-- A well-formed okay-status response with id `abc`. -/
def okayResponse : RawMessage :=
  { status := some "okay", id := some "abc", _type := some "response",
    error := none, value := some "pong" }

/-- Witness for C2 at a concrete run: the response with id `abc` resolves
the request with id `abc`. -/
theorem C2_resolution_matches_request_id_witness :
    okayResponse.id = some "abc" ∧
    ∀ m' : RawMessage, m'.id = some "abc" →
      pendingStep (some "abc") 2000 ⟨true, true, none⟩
          (RequestEvent.messageReceived m')
        = ⟨false, false, some (SettleResult.resolved m')⟩ :=
  C2_resolution_matches_request_id (some "abc") 2000
    [RequestEvent.messageReceived okayResponse] okayResponse (by decide)

/-- C3 as stated is false on the cleanup point: the timeout callback
(lines 195-197) only calls `reject` — it does not remove the
`messageReceived` listener. After a timeout with no matching response the
promise is rejected with the expected message, but the listener is still
registered (a dangling listener remains). -/
theorem C3_dangling_listener_counterexample :
    (runPending (some "r1") 2000 (sendRequestInit true (some "r1"))
        [RequestEvent.timerFires]).settled
      = some (SettleResult.rejected
          "The request with id = r1 timed out after 2000ms.") ∧
    (runPending (some "r1") 2000 (sendRequestInit true (some "r1"))
        [RequestEvent.timerFires]).listenerOn = true := by
  refine ⟨by decide, by decide⟩

theorem runPending_no_match_fixed (i : String) (timeout : Nat)
    (events : List RequestEvent) (s : PendingRequestState)
    (ht : s.timerOn = false) (hl : s.listenerOn = true)
    (hnomatch : ∀ m : RawMessage,
      RequestEvent.messageReceived m ∈ events → m.id ≠ some i) :
    runPending (some i) timeout s events = s := by
  induction events with
  | nil => rfl
  | cons e rest ih =>
    have hstep : pendingStep (some i) timeout s e = s := by
      cases e with
      | timerFires => simp [pendingStep, ht]
      | messageReceived m =>
        have hm : m.id ≠ some i :=
          hnomatch m (List.mem_cons_self _ _)
        simp [pendingStep, hl, hm]
    have hrest : ∀ m : RawMessage,
        RequestEvent.messageReceived m ∈ rest → m.id ≠ some i := by
      intro m hmem
      exact hnomatch m (List.mem_cons_of_mem _ hmem)
    calc runPending (some i) timeout s (e :: rest)
        = runPending (some i) timeout (pendingStep (some i) timeout s e) rest := rfl
      _ = runPending (some i) timeout s rest := by rw [hstep]
      _ = s := ih hrest

/-- C3 amended: when the matching response never arrives, the timer
firing rejects the promise with the message naming the request id and the
configured milliseconds — but the `messageReceived` listener is NOT
removed; it stays registered through any further non-matching traffic
(dangling listener). Only if a message with the request's id arrives
later does the listener remove itself; its resolve call is then a no-op
on the already-rejected promise, so the late response is silently ignored
as far as the caller can observe. -/
theorem C3_timeout_rejection_and_dangling_listener (i : String) (timeout : Nat)
    (events : List RequestEvent)
    (hnomatch : ∀ m : RawMessage,
      RequestEvent.messageReceived m ∈ events → m.id ≠ some i) :
    (runPending (some i) timeout (sendRequestInit true (some i))
        (RequestEvent.timerFires :: events)).settled
      = some (SettleResult.rejected (timeoutRejection (some i) timeout)) ∧
    (runPending (some i) timeout (sendRequestInit true (some i))
        (RequestEvent.timerFires :: events)).listenerOn = true ∧
    ∀ m : RawMessage, m.id = some i →
      (runPending (some i) timeout (sendRequestInit true (some i))
          (RequestEvent.timerFires :: (events ++ [RequestEvent.messageReceived m])))
        = ⟨false, false,
            some (SettleResult.rejected (timeoutRejection (some i) timeout))⟩ := by
  have hinit : sendRequestInit true (some i) = ⟨true, true, none⟩ := by
    simp [sendRequestInit]
  have hfire :
      pendingStep (some i) timeout ⟨true, true, none⟩ RequestEvent.timerFires
        = ⟨true, false,
            some (SettleResult.rejected (timeoutRejection (some i) timeout))⟩ := by
    simp [pendingStep, settleFirst]
  have hafter :
      runPending (some i) timeout (sendRequestInit true (some i))
          (RequestEvent.timerFires :: events)
        = ⟨true, false,
            some (SettleResult.rejected (timeoutRejection (some i) timeout))⟩ := by
    calc runPending (some i) timeout (sendRequestInit true (some i))
          (RequestEvent.timerFires :: events)
        = runPending (some i) timeout
            (pendingStep (some i) timeout (sendRequestInit true (some i))
              RequestEvent.timerFires) events := rfl
      _ = runPending (some i) timeout
            ⟨true, false,
              some (SettleResult.rejected (timeoutRejection (some i) timeout))⟩
            events := by rw [hinit, hfire]
      _ = ⟨true, false,
            some (SettleResult.rejected (timeoutRejection (some i) timeout))⟩ :=
          runPending_no_match_fixed i timeout events _ rfl rfl hnomatch
  refine ⟨by rw [hafter], by rw [hafter], ?_⟩
  intro m hm
  have hsplit :
      runPending (some i) timeout (sendRequestInit true (some i))
          (RequestEvent.timerFires :: (events ++ [RequestEvent.messageReceived m]))
        = pendingStep (some i) timeout
            (runPending (some i) timeout (sendRequestInit true (some i))
              (RequestEvent.timerFires :: events))
            (RequestEvent.messageReceived m) := by
    show List.foldl (pendingStep (some i) timeout) _
          (RequestEvent.timerFires :: events ++ [RequestEvent.messageReceived m]) = _
    rw [show RequestEvent.timerFires :: events ++ [RequestEvent.messageReceived m]
          = (RequestEvent.timerFires :: events) ++ [RequestEvent.messageReceived m]
        from rfl]
    rw [List.foldl_append]
    rfl
  rw [hsplit, hafter]
  simp [pendingStep, hm, settleFirst]

/-- Witness for the amended C3 at a concrete input: request id `r1`,
timeout 2000, no other traffic, then a late matching response. -/
theorem C3_timeout_rejection_and_dangling_listener_witness :
    (runPending (some "r1") 2000 (sendRequestInit true (some "r1"))
        [RequestEvent.timerFires]).settled
      = some (SettleResult.rejected (timeoutRejection (some "r1") 2000)) ∧
    (runPending (some "r1") 2000 (sendRequestInit true (some "r1"))
        [RequestEvent.timerFires]).listenerOn = true ∧
    ∀ m : RawMessage, m.id = some "r1" →
      (runPending (some "r1") 2000 (sendRequestInit true (some "r1"))
          (RequestEvent.timerFires :: ([] ++ [RequestEvent.messageReceived m])))
        = ⟨false, false,
            some (SettleResult.rejected (timeoutRejection (some "r1") 2000))⟩ :=
  C3_timeout_rejection_and_dangling_listener "r1" 2000 []
    (by intro m hmem; cases hmem)

/-! ## The executor body of sendRequest (part_001 lines 182-210)

The statements of the promise executor, in execution order, as a trace of
effects. The two guards call `reject` but do not return, so the write,
the `setTimeout` and the listener registration always follow. -/

inductive SendEffect where
  | rejectCall (reason : String)
  | writeCall (payload : List Nat)
  | setTimeoutCall (ms : Nat)
  | listenerRegistration
  deriving DecidableEq, Repr

/-- The effect trace of running the executor body with the given
connection state, request id and encoded request. -/
def sendRequestBody (connected : Bool) (requestId : Option String)
    (encodedRequest : List Nat) (timeout : Nat) : List SendEffect :=
  (if !connected then [SendEffect.rejectCall "AsyncSocket not connected."] else []) ++
  (if requestId = none then [SendEffect.rejectCall "request.id must be defined."] else []) ++
  [SendEffect.writeCall encodedRequest,
   SendEffect.setTimeoutCall timeout,
   SendEffect.listenerRegistration]

/-- C10: on every `sendRequest` call — connected or not, request id
present or not — the encoded request is written to the socket, the
timeout timer is started and the `messageReceived` listener is
registered; and a guard rejection occurs exactly when the client is not
connected or the id is missing (the early rejection does not suppress the
later side effects). -/
theorem C10_side_effects_always_happen (connected : Bool) (requestId : Option String)
    (encodedRequest : List Nat) (timeout : Nat) :
    SendEffect.writeCall encodedRequest
        ∈ sendRequestBody connected requestId encodedRequest timeout ∧
    SendEffect.setTimeoutCall timeout
        ∈ sendRequestBody connected requestId encodedRequest timeout ∧
    SendEffect.listenerRegistration
        ∈ sendRequestBody connected requestId encodedRequest timeout ∧
    ((∃ r, SendEffect.rejectCall r
        ∈ sendRequestBody connected requestId encodedRequest timeout) ↔
      (connected = false ∨ requestId = none)) := by
  cases connected <;> cases requestId <;>
    simp [sendRequestBody]

/-! ## Connection establishment (AsyncSocket lines 84-124 and start, part_001 lines 60-96)

`asyncConnectNoRetry` arms a connect-timeout timer, a once-error listener
and a once-connect listener against a fresh socket, and settles its
promise with whichever fires first. `start` returns `false` when already
connected, awaits the connect promise inside try/catch (a rejection is
caught and turned into `false`, never rethrown) and returns `true` only
after a successful connection. A run in which none of the three events
ever fires leaves the promise pending — `start` never returns at all in
that case, modelled as `none`. -/

inductive ConnectEvent where
  | timeoutFires
  | errorRaised (err : String)
  | connectRaised
  deriving DecidableEq, Repr

inductive ConnectResult where
  | resolvedOk
  | rejectedWith (reason : String)
  deriving DecidableEq, Repr

def settleConnect (s : Option ConnectResult) (v : ConnectResult) :
    Option ConnectResult :=
  match s with
  | some r => some r
  | none => some v

structure ConnectAttemptState where
  timerOn : Bool
  errorListenerOn : Bool
  connectListenerOn : Bool
  connected : Bool
  settled : Option ConnectResult
  deriving DecidableEq, Repr

/-- One event of the connect race: the timeout handler rejects unless
already connected; the once-error handler clears the timer, drops the
connect handler and rejects; the once-connect handler clears the timer,
drops the error handler, marks connected and resolves. -/
def connectAttemptStep (s : ConnectAttemptState) :
    ConnectEvent → ConnectAttemptState
  | ConnectEvent.timeoutFires =>
    if !s.timerOn then s
    else if s.connected then { s with timerOn := false }
    else { s with timerOn := false, connected := false,
                  settled := settleConnect s.settled
                    (ConnectResult.rejectedWith "The connection request timed out.") }
  | ConnectEvent.errorRaised err =>
    if !s.errorListenerOn then s
    else { timerOn := false, errorListenerOn := false,
           connectListenerOn := false, connected := false,
           settled := settleConnect s.settled (ConnectResult.rejectedWith err) }
  | ConnectEvent.connectRaised =>
    if !s.connectListenerOn then s
    else { timerOn := false, errorListenerOn := false,
           connectListenerOn := false, connected := true,
           settled := settleConnect s.settled ConnectResult.resolvedOk }

/-- `asyncConnectNoRetry` on the fresh socket created by `start`
(line 68): timer armed, both once-listeners armed, not connected,
promise pending. -/
def asyncConnectNoRetryRun (events : List ConnectEvent) : ConnectAttemptState :=
  events.foldl connectAttemptStep ⟨true, true, true, false, none⟩

/-- `SocketAPIClient.start` (part_001 lines 60-96), abstracting the
connect attempt by its event trace: `some b` is a returned boolean,
`none` a connect promise that never settles (the call never returns —
and in particular never throws). -/
def start (alreadyConnected : Bool) (events : List ConnectEvent) : Option Bool :=
  if alreadyConnected then some false
  else
    match (asyncConnectNoRetryRun events).settled with
    | some ConnectResult.resolvedOk => some true
    | some (ConnectResult.rejectedWith _) => some false
    | none => none

/-- C9: `start` never throws — its only outcomes are the booleans (or,
when the connect attempt never concludes, no return at all). It returns
`false` when already connected; it returns `false` whenever the connect
attempt settles with a rejection (error or timeout — the failure is
caught, not propagated); and it returns `true` exactly when it was not
already connected and the connect attempt succeeded. -/
theorem C9_start_returns_bool (alreadyConnected : Bool) (events : List ConnectEvent) :
    (alreadyConnected = true → start alreadyConnected events = some false) ∧
    (∀ e : String,
      (asyncConnectNoRetryRun events).settled = some (ConnectResult.rejectedWith e) →
      start alreadyConnected events = some false) ∧
    (start alreadyConnected events = some true ↔
      (alreadyConnected = false ∧
        (asyncConnectNoRetryRun events).settled = some ConnectResult.resolvedOk)) := by
  refine ⟨?_, ?_, ?_⟩
  · intro h
    rw [h]
    simp [start]
  · intro e he
    cases alreadyConnected with
    | true => simp [start]
    | false => simp [start, he]
  · cases alreadyConnected with
    | true => simp [start]
    | false =>
      cases hset : (asyncConnectNoRetryRun events).settled with
      | none => simp [start, hset]
      | some r =>
        cases r with
        | resolvedOk => simp [start, hset]
        | rejectedWith e => simp [start, hset]

/-- Witness for C9 at concrete runs: a connect event yields `true`, an
error yields `false`, and an already-connected client yields `false`. -/
theorem C9_start_returns_bool_witness :
    start false [ConnectEvent.connectRaised] = some true ∧
    start false [ConnectEvent.errorRaised "ECONNREFUSED"] = some false ∧
    start true [] = some false := by
  refine ⟨?_, ?_, ?_⟩
  · exact (C9_start_returns_bool false [ConnectEvent.connectRaised]).2.2.mpr
      ⟨rfl, by decide⟩
  · exact (C9_start_returns_bool false
      [ConnectEvent.errorRaised "ECONNREFUSED"]).2.1 "ECONNREFUSED" (by decide)
  · exact (C9_start_returns_bool true []).1 rfl

/-! ## Automatic reconnection (AsyncSocket.ts lines 126-191)

`initiateReconnectionAttempts` guards against re-entrancy, then loops
`while ((withinMaxRetries() || retryIndefinitely()) && !this.connected)`:
increment the attempt counter, emit `reconnecting`, sleep, attempt a
fresh connect. The loop is driven here by the list of connect-attempt
outcomes (`true` = that attempt succeeds); running out of supplied
outcomes while the loop would continue is the `outOfOutcomes` marker. -/

structure AsyncSocketState where
  connected : Bool
  reconnecting : Bool
  reconnectionAttempts : Nat
  deriving DecidableEq, Repr

inductive ReconnectEvent where
  | reconnectingEmit
  | reconnectFailedEmit (attemptCount : Nat) (maxAttempts : Int)
  | reconnectedEmit
  deriving DecidableEq, Repr

inductive ReconnectOutcome where
  | reconnected
  | maxRetriesReached (maxAttempts : Int)
  | outOfOutcomes
  | alreadyConnectedError
  | alreadyReconnectingError
  deriving DecidableEq, Repr

def defaultReconnectMaxRetries : Int := 3

/-- `this.reconnectionAttempts < (options?.reconnectMaxRetries ?? 3)`. -/
def withinMaxRetries (maxRetries : Option Int) (s : AsyncSocketState) : Bool :=
  (s.reconnectionAttempts : Int) < maxRetries.getD defaultReconnectMaxRetries

/-- `options?.reconnectMaxRetries === -1`. -/
def retryIndefinitely (maxRetries : Option Int) : Bool :=
  maxRetries == some (-1)

/-- The `while` loop of `initiateReconnectionAttempts` (lines 161-190),
consuming one connect outcome per iteration. On success: counter reset to
0, `reconnecting` cleared, connected, `reconnected` emitted, loop left.
On failure: `reconnectFailed` emitted with the post-increment attempt
count and the loop continues. When the guard fails the loop exits,
`reconnecting` is cleared and the max-retries error is thrown. -/
def reconnectLoop (maxRetries : Option Int) (s : AsyncSocketState) :
    List Bool → AsyncSocketState × List ReconnectEvent × ReconnectOutcome
  | [] =>
    if (withinMaxRetries maxRetries s || retryIndefinitely maxRetries)
        && !s.connected then
      (s, [], ReconnectOutcome.outOfOutcomes)
    else
      ({ s with reconnecting := false }, [],
        ReconnectOutcome.maxRetriesReached (maxRetries.getD defaultReconnectMaxRetries))
  | success :: rest =>
    if (withinMaxRetries maxRetries s || retryIndefinitely maxRetries)
        && !s.connected then
      if success then
        ({ connected := true, reconnecting := false, reconnectionAttempts := 0 },
         [ReconnectEvent.reconnectingEmit, ReconnectEvent.reconnectedEmit],
         ReconnectOutcome.reconnected)
      else
        let r := reconnectLoop maxRetries
          { s with reconnectionAttempts := s.reconnectionAttempts + 1 } rest
        (r.1,
         ReconnectEvent.reconnectingEmit ::
           ReconnectEvent.reconnectFailedEmit (s.reconnectionAttempts + 1)
             (maxRetries.getD defaultReconnectMaxRetries) :: r.2.1,
         r.2.2)
    else
      ({ s with reconnecting := false }, [],
        ReconnectOutcome.maxRetriesReached (maxRetries.getD defaultReconnectMaxRetries))

/-- Entry of `initiateReconnectionAttempts` (lines 149-156): throws when
already connected or already reconnecting, otherwise sets `reconnecting`
and enters the loop. -/
def initiateReconnectionAttempts (maxRetries : Option Int) (s : AsyncSocketState)
    (outcomes : List Bool) : AsyncSocketState × List ReconnectEvent × ReconnectOutcome :=
  if s.connected then (s, [], ReconnectOutcome.alreadyConnectedError)
  else if s.reconnecting then (s, [], ReconnectOutcome.alreadyReconnectingError)
  else reconnectLoop maxRetries { s with reconnecting := true } outcomes

/-- `canReconnect` (lines 133-144), consulted by the close-observer
before entering the loop. -/
def canReconnect (maxRetries : Option Int) (s : AsyncSocketState) : Bool :=
  if s.connected then false
  else if s.reconnecting then false
  else if (s.reconnectionAttempts : Int) ≥ maxRetries.getD defaultReconnectMaxRetries then
    false
  else true

theorem loopGuard_eq (M : Nat) (s : AsyncSocketState) :
    ((withinMaxRetries (some (M : Int)) s || retryIndefinitely (some (M : Int)))
        && !s.connected)
      = (decide (s.reconnectionAttempts < M) && !s.connected) := by
  have h1 : withinMaxRetries (some (M : Int)) s
      = decide (s.reconnectionAttempts < M) := by
    simp [withinMaxRetries]
  have h2 : retryIndefinitely (some (M : Int)) = false := by
    simp [retryIndefinitely]
  rw [h1, h2, Bool.or_false]

theorem guardTrue (M : Nat) (s : AsyncSocketState)
    (hlt : s.reconnectionAttempts < M) (hc : s.connected = false) :
    (decide (s.reconnectionAttempts < M) && !s.connected) = true := by
  simp [hlt, hc]

theorem reconnectLoop_exit (M : Nat) (s : AsyncSocketState) (outcomes : List Bool)
    (h : (decide (s.reconnectionAttempts < M) && !s.connected) = false) :
    reconnectLoop (some (M : Int)) s outcomes
      = ({ s with reconnecting := false }, [],
         ReconnectOutcome.maxRetriesReached (M : Int)) := by
  cases outcomes with
  | nil =>
    rw [reconnectLoop, loopGuard_eq, h]
    rfl
  | cons b rest =>
    rw [reconnectLoop, loopGuard_eq, h]
    rfl

theorem reconnectLoop_pending (M : Nat) (s : AsyncSocketState)
    (h : (decide (s.reconnectionAttempts < M) && !s.connected) = true) :
    reconnectLoop (some (M : Int)) s []
      = (s, [], ReconnectOutcome.outOfOutcomes) := by
  rw [reconnectLoop, loopGuard_eq, h]
  rfl

theorem reconnectLoop_step_succ (M : Nat) (s : AsyncSocketState) (rest : List Bool)
    (h : (decide (s.reconnectionAttempts < M) && !s.connected) = true) :
    reconnectLoop (some (M : Int)) s (true :: rest)
      = (⟨true, false, 0⟩,
         [ReconnectEvent.reconnectingEmit, ReconnectEvent.reconnectedEmit],
         ReconnectOutcome.reconnected) := by
  rw [reconnectLoop, loopGuard_eq, h]
  rfl

theorem reconnectLoop_step_fail (M : Nat) (s : AsyncSocketState) (rest : List Bool)
    (h : (decide (s.reconnectionAttempts < M) && !s.connected) = true) :
    reconnectLoop (some (M : Int)) s (false :: rest)
      = ((reconnectLoop (some (M : Int))
            { s with reconnectionAttempts := s.reconnectionAttempts + 1 } rest).1,
         ReconnectEvent.reconnectingEmit ::
           ReconnectEvent.reconnectFailedEmit (s.reconnectionAttempts + 1) (M : Int) ::
           (reconnectLoop (some (M : Int))
             { s with reconnectionAttempts := s.reconnectionAttempts + 1 } rest).2.1,
         (reconnectLoop (some (M : Int))
           { s with reconnectionAttempts := s.reconnectionAttempts + 1 } rest).2.2) := by
  rw [reconnectLoop, loopGuard_eq, h]
  rfl

theorem reconnectLoop_attempts_le (M : Nat) (outcomes : List Bool) :
    ∀ s : AsyncSocketState, s.reconnectionAttempts ≤ M →
      (reconnectLoop (some (M : Int)) s outcomes).1.reconnectionAttempts ≤ M := by
  induction outcomes with
  | nil =>
    intro s hs
    by_cases hc : s.connected = true
    · rw [reconnectLoop_exit M s [] (by simp [hc])]
      exact hs
    · have hc2 : s.connected = false := by simpa using hc
      by_cases hlt : s.reconnectionAttempts < M
      · rw [reconnectLoop_pending M s (guardTrue M s hlt hc2)]
        exact hs
      · rw [reconnectLoop_exit M s [] (by simp [hlt])]
        exact hs
  | cons b rest ih =>
    intro s hs
    by_cases hc : s.connected = true
    · rw [reconnectLoop_exit M s (b :: rest) (by simp [hc])]
      exact hs
    · have hc2 : s.connected = false := by simpa using hc
      by_cases hlt : s.reconnectionAttempts < M
      · cases b with
        | true =>
          rw [reconnectLoop_step_succ M s rest (guardTrue M s hlt hc2)]
          exact Nat.zero_le M
        | false =>
          rw [reconnectLoop_step_fail M s rest (guardTrue M s hlt hc2)]
          exact ih { s with reconnectionAttempts := s.reconnectionAttempts + 1 }
            (by simpa using hlt)
      · rw [reconnectLoop_exit M s (b :: rest) (by simp [hlt])]
        exact hs

theorem reconnectLoop_count_le (M : Nat) (outcomes : List Bool) :
    ∀ s : AsyncSocketState, s.reconnectionAttempts ≤ M →
      (reconnectLoop (some (M : Int)) s outcomes).2.1.count
          ReconnectEvent.reconnectingEmit + s.reconnectionAttempts ≤ M := by
  induction outcomes with
  | nil =>
    intro s hs
    by_cases hc : s.connected = true
    · rw [reconnectLoop_exit M s [] (by simp [hc])]
      simpa using hs
    · have hc2 : s.connected = false := by simpa using hc
      by_cases hlt : s.reconnectionAttempts < M
      · rw [reconnectLoop_pending M s (guardTrue M s hlt hc2)]
        simpa using hs
      · rw [reconnectLoop_exit M s [] (by simp [hlt])]
        simpa using hs
  | cons b rest ih =>
    intro s hs
    by_cases hc : s.connected = true
    · rw [reconnectLoop_exit M s (b :: rest) (by simp [hc])]
      simpa using hs
    · have hc2 : s.connected = false := by simpa using hc
      by_cases hlt : s.reconnectionAttempts < M
      · cases b with
        | true =>
          rw [reconnectLoop_step_succ M s rest (guardTrue M s hlt hc2)]
          simp [List.count_cons]
          omega
        | false =>
          rw [reconnectLoop_step_fail M s rest (guardTrue M s hlt hc2)]
          have hih := ih { s with reconnectionAttempts := s.reconnectionAttempts + 1 }
            (by simpa using hlt)
          simp only [List.count_cons] at hih ⊢
          simp at hih ⊢
          omega
      · rw [reconnectLoop_exit M s (b :: rest) (by simp [hlt])]
        simpa using hs

theorem reconnectLoop_reconnected_state (M : Nat) (outcomes : List Bool) :
    ∀ s : AsyncSocketState,
      (reconnectLoop (some (M : Int)) s outcomes).2.2 = ReconnectOutcome.reconnected →
      (reconnectLoop (some (M : Int)) s outcomes).1 = ⟨true, false, 0⟩ := by
  induction outcomes with
  | nil =>
    intro s h
    by_cases hc : s.connected = true
    · rw [reconnectLoop_exit M s [] (by simp [hc])] at h
      simp at h
    · have hc2 : s.connected = false := by simpa using hc
      by_cases hlt : s.reconnectionAttempts < M
      · rw [reconnectLoop_pending M s (guardTrue M s hlt hc2)] at h
        simp at h
      · rw [reconnectLoop_exit M s [] (by simp [hlt])] at h
        simp at h
  | cons b rest ih =>
    intro s h
    by_cases hc : s.connected = true
    · rw [reconnectLoop_exit M s (b :: rest) (by simp [hc])] at h
      simp at h
    · have hc2 : s.connected = false := by simpa using hc
      by_cases hlt : s.reconnectionAttempts < M
      · cases b with
        | true =>
          rw [reconnectLoop_step_succ M s rest (guardTrue M s hlt hc2)]
        | false =>
          rw [reconnectLoop_step_fail M s rest (guardTrue M s hlt hc2)] at h ⊢
          exact ih { s with reconnectionAttempts := s.reconnectionAttempts + 1 } h
      · rw [reconnectLoop_exit M s (b :: rest) (by simp [hlt])] at h
        simp at h

theorem reconnectLoop_exhaust (M : Nat) (outcomes : List Bool) :
    ∀ s : AsyncSocketState, s.connected = false →
      s.reconnectionAttempts ≤ M →
      M ≤ s.reconnectionAttempts + outcomes.length →
      (∀ b ∈ outcomes, b = false) →
      reconnectLoop (some (M : Int)) s outcomes
        = (⟨false, false, M⟩,
           ((List.range' (s.reconnectionAttempts + 1) (M - s.reconnectionAttempts)).map
             (fun k => [ReconnectEvent.reconnectingEmit,
               ReconnectEvent.reconnectFailedEmit k (M : Int)])).flatten,
           ReconnectOutcome.maxRetriesReached (M : Int)) := by
  induction outcomes with
  | nil =>
    intro s hc hle hge _
    have heq : s.reconnectionAttempts = M := by
      simp at hge
      omega
    have hlt : ¬ s.reconnectionAttempts < M := by omega
    rw [reconnectLoop_exit M s [] (by simp [hlt])]
    obtain ⟨c, r, a⟩ := s
    simp only at hc heq
    subst hc
    subst heq
    simp
  | cons b rest ih =>
    intro s hc hle hge hall
    have hb : b = false := hall b (List.mem_cons_self _ _)
    subst hb
    by_cases hlt : s.reconnectionAttempts < M
    · rw [reconnectLoop_step_fail M s rest (guardTrue M s hlt hc)]
      have hrest := ih { s with reconnectionAttempts := s.reconnectionAttempts + 1 }
        hc (by simpa using hlt)
        (by
          show M ≤ s.reconnectionAttempts + 1 + rest.length
          simp at hge
          omega)
        (fun x hx => hall x (List.mem_cons_of_mem _ hx))
      rw [hrest]
      have hrange : List.range' (s.reconnectionAttempts + 1)
            (M - s.reconnectionAttempts)
          = (s.reconnectionAttempts + 1) ::
              List.range' (s.reconnectionAttempts + 1 + 1)
                (M - (s.reconnectionAttempts + 1)) := by
        have hsub : M - s.reconnectionAttempts
            = (M - (s.reconnectionAttempts + 1)) + 1 := by omega
        rw [hsub, List.range'_succ]
      rw [hrange]
      simp
    · have heq : s.reconnectionAttempts = M := by omega
      rw [reconnectLoop_exit M s (false :: rest) (by simp [hlt])]
      obtain ⟨c, r, a⟩ := s
      simp only at hc heq
      subst hc
      subst heq
      simp

/-- C6: starting from a fresh socket (counter 0) with a configured
non-negative bound `M` (the sentinel -1 excluded, as the claim requires),
for every sequence of attempt outcomes: the counter never exceeds `M`;
at most `M` attempts are made (each attempt emits exactly one
`reconnecting` notification); if the loop exits reconnected the counter
has been reset to zero; and when all attempts fail and at least `M`
outcomes are available, the loop ends in the failed state with the
max-retries error after exactly the attempts numbered 1..M (each counted
once, in order), and `canReconnect` is then false, so the close-observer
starts no further automatic attempt until `start` builds a fresh socket. -/
theorem C6_reconnect_bounded_retries (M : Nat) (outcomes : List Bool) :
    (initiateReconnectionAttempts (some (M : Int)) ⟨false, false, 0⟩
        outcomes).1.reconnectionAttempts ≤ M ∧
    (initiateReconnectionAttempts (some (M : Int)) ⟨false, false, 0⟩
        outcomes).2.1.count ReconnectEvent.reconnectingEmit ≤ M ∧
    ((initiateReconnectionAttempts (some (M : Int)) ⟨false, false, 0⟩
        outcomes).2.2 = ReconnectOutcome.reconnected →
      (initiateReconnectionAttempts (some (M : Int)) ⟨false, false, 0⟩
        outcomes).1 = ⟨true, false, 0⟩) ∧
    ((∀ b ∈ outcomes, b = false) → M ≤ outcomes.length →
      initiateReconnectionAttempts (some (M : Int)) ⟨false, false, 0⟩ outcomes
        = (⟨false, false, M⟩,
           ((List.range' 1 M).map
             (fun k => [ReconnectEvent.reconnectingEmit,
               ReconnectEvent.reconnectFailedEmit k (M : Int)])).flatten,
           ReconnectOutcome.maxRetriesReached (M : Int)) ∧
      canReconnect (some (M : Int)) ⟨false, false, M⟩ = false) := by
  have hentry : initiateReconnectionAttempts (some (M : Int)) ⟨false, false, 0⟩ outcomes
      = reconnectLoop (some (M : Int)) ⟨false, true, 0⟩ outcomes := by
    simp [initiateReconnectionAttempts]
  refine ⟨?_, ?_, ?_, ?_⟩
  · rw [hentry]
    exact reconnectLoop_attempts_le M outcomes ⟨false, true, 0⟩ (Nat.zero_le M)
  · rw [hentry]
    have := reconnectLoop_count_le M outcomes ⟨false, true, 0⟩ (Nat.zero_le M)
    simpa using this
  · rw [hentry]
    exact reconnectLoop_reconnected_state M outcomes ⟨false, true, 0⟩
  · intro hall hlen
    constructor
    · rw [hentry]
      have := reconnectLoop_exhaust M outcomes ⟨false, true, 0⟩ rfl (Nat.zero_le M)
        (by simpa using hlen) hall
      simpa using this
    · simp [canReconnect]

/-- Witness for C6 at the concrete configuration of the claim:
`reconnectMaxRetries = 3` and three consecutive failed attempts. -/
theorem C6_reconnect_bounded_retries_witness :
    (initiateReconnectionAttempts (some (3 : Int)) ⟨false, false, 0⟩
        [false, false, false]).1.reconnectionAttempts ≤ 3 ∧
    initiateReconnectionAttempts (some (3 : Int)) ⟨false, false, 0⟩
        [false, false, false]
      = (⟨false, false, 3⟩,
         ((List.range' 1 3).map
           (fun k => [ReconnectEvent.reconnectingEmit,
             ReconnectEvent.reconnectFailedEmit k (3 : Int)])).flatten,
         ReconnectOutcome.maxRetriesReached (3 : Int)) ∧
    canReconnect (some (3 : Int)) ⟨false, false, 3⟩ = false := by
  refine ⟨(C6_reconnect_bounded_retries 3 [false, false, false]).1, ?_, ?_⟩
  · exact (((C6_reconnect_bounded_retries 3 [false, false, false]).2.2.2
      (by decide) (by decide)).1)
  · exact (((C6_reconnect_bounded_retries 3 [false, false, false]).2.2.2
      (by decide) (by decide)).2)

/-! ## Event fan-out (part_001 lines 126-129, 216-226)

`subscribe` forwards to the emitter's `on` (which appends the callback to
the listener list) and an Event-kind message is delivered via the
emitter's `emit`. The emitter is the external `tiny-typed-emitter`
package, a typed re-export of Node's `EventEmitter`, whose documented
`emit` semantics are embedded here: each listener is called synchronously
in registration order with the supplied argument; an exception thrown by
a listener propagates out of `emit` immediately, so the remaining
listeners are not called. The repository wraps no try/catch around the
dispatch. A callback is a function returning `Except`: `error` models a
thrown exception. -/

structure EventCallback where
  cid : Nat
  run : RawMessage → Except String Unit

/-- `eventEmitter.on('eventReceived', callback)`: Node appends the new
listener to the end of the listener list. -/
def subscribe (callbacks : List EventCallback) (callback : EventCallback) :
    List EventCallback :=
  callbacks ++ [callback]

/-- Node `EventEmitter.emit`: invoke the listeners in registration order;
returns the ids invoked (in call order) and the first thrown error, which
aborts the iteration. -/
def emitEvent : List EventCallback → RawMessage → List Nat × Option String
  | [], _ => ([], none)
  | cb :: rest, m =>
    match cb.run m with
    | Except.ok _ =>
      ((emitEvent rest m).1.cons cb.cid, (emitEvent rest m).2)
    | Except.error e => ([cb.cid], some e)

/-- An event-kind message used in concrete runs. -/
def eventMessage : RawMessage :=
  { status := some "okay", id := some "evt", _type := some "event",
    error := none, value := some "payload" }

/-- C7 as stated is false on the error-isolation point: dispatch goes
through Node's `EventEmitter.emit` with no try/catch in the repository,
so a callback that throws prevents the callbacks registered after it from
running. Concretely, with callback 0 (throws) registered before callback
1, emitting one event invokes only callback 0 and propagates the error;
callback 1 is never invoked. -/
theorem C7_throwing_callback_stops_dispatch_counterexample :
    emitEvent
        (subscribe (subscribe [] ⟨0, fun _ => Except.error "boom"⟩)
          ⟨1, fun _ => Except.ok ()⟩)
        eventMessage
      = ([0], some "boom") := by
  rfl

/-- C7 amended: on an event-kind message every currently subscribed
callback is invoked synchronously, in registration order, with that
message — provided no callback throws. A throwing callback ends the
dispatch: the callbacks before it run in order, the thrower runs, its
error propagates out of the dispatch, and the callbacks registered after
it are not invoked. -/
theorem C7_dispatch_in_registration_order (callbacks : List EventCallback)
    (m : RawMessage)
    (h : ∀ cb ∈ callbacks, cb.run m = Except.ok ()) :
    emitEvent callbacks m = (callbacks.map EventCallback.cid, none) ∧
    ∀ (pre : List EventCallback) (bad : EventCallback) (post : List EventCallback)
      (e : String),
      (∀ cb ∈ pre, cb.run m = Except.ok ()) → bad.run m = Except.error e →
      emitEvent (pre ++ bad :: post) m
        = (pre.map EventCallback.cid ++ [bad.cid], some e) := by
  constructor
  · induction callbacks with
    | nil => rfl
    | cons cb rest ih =>
      have hcb : cb.run m = Except.ok () := h cb (List.mem_cons_self _ _)
      have hrest := ih (fun x hx => h x (List.mem_cons_of_mem _ hx))
      rw [emitEvent, hcb, hrest]
      simp
  · intro pre bad post e hpre hbad
    induction pre with
    | nil =>
      simp only [List.nil_append]
      rw [emitEvent, hbad]
      simp
    | cons cb rest ih =>
      have hcb : cb.run m = Except.ok () := hpre cb (List.mem_cons_self _ _)
      have hrest := ih (fun x hx => hpre x (List.mem_cons_of_mem _ hx))
      simp only [List.cons_append]
      rw [emitEvent, hcb, hrest]
      simp

/-- Witness for the amended C7: two non-throwing callbacks registered in
order 1 then 2 are both invoked, in that order. -/
theorem C7_dispatch_in_registration_order_witness :
    emitEvent [⟨1, fun _ => Except.ok ()⟩, ⟨2, fun _ => Except.ok ()⟩]
        eventMessage
      = ([⟨1, fun _ => Except.ok ()⟩, ⟨2, fun _ => Except.ok ()⟩].map
          EventCallback.cid, none) :=
  (C7_dispatch_in_registration_order
    [⟨1, fun _ => Except.ok ()⟩, ⟨2, fun _ => Except.ok ()⟩] eventMessage
    (by
      intro cb hcb
      cases hcb with
      | head => rfl
      | tail _ h2 =>
        cases h2 with
        | head => rfl
        | tail _ h3 => cases h3)).1

end AcnhOrders
